import Mathlib

/-!
Shallow embedding of the Azure ScaleSet driver of the cluster-autoscaler
(`cluster-autoscaler/cloudprovider/azure/azure_scale_set.go`).

Modelling conventions:
* `time.Time` and `time.Duration` are both `Int`; `t.Add(d).After(now)`
  becomes `t + d > now`.  Each Go function receives a single `now`
  parameter standing for the (closely spaced) `time.Now()` calls in its
  body.
* Backend results (the Azure SDK calls) are inputs to the model: each
  function takes the result the backend would deliver for the calls it
  makes.  Every function additionally returns the list of backend calls
  it issued, so that "no backend call is made" is a statement of the
  model.
* Go errors are `Except AzError`.  `isAzureRequestsThrottled` (defined
  outside this file in the repository) classifies an error as throttled;
  in the model the backend error carries its throttled flag.
* The manager lookup `GetAsgForInstance` and the helper `getLastSegment`
  are external collaborators (defined outside this source file); they are
  passed as function parameters.
-/

deriving instance DecidableEq for Except

namespace AutoScaler

/-- State of a `cloudprovider.Instance` (`InstanceCreating`,
`InstanceRunning`, `InstanceDeleting`). -/
inductive InstanceState where
  | creating
  | running
  | deleting
deriving Repr, DecidableEq

/-- Model of `cloudprovider.Instance`: provider id and status.  The Go `Status`
field is a pointer to a struct whose only field used by this file is
`State`; it is modelled as `Option InstanceState`. -/
structure Instance where
  id : String
  status : Option InstanceState
deriving Repr, DecidableEq

/-- A `compute.VirtualMachineScaleSet` restricted to the fields this file
reads: `*vmss.Name` and `*vmss.Sku.Capacity` (the pointers are always set
for descriptors returned by the backend; the Go code dereferences them
without nil checks). -/
structure VMSS where
  name : String
  capacity : Int
deriving Repr, DecidableEq

/-- A `compute.VirtualMachineScaleSetVM` restricted to the fields read by
`buildInstanceCache` / `instanceStatusFromVM`: `*vm.ID` (dereferenced
without a nil check by the Go code) and `vm.ProvisioningState`
(a nullable string). -/
structure VMSSVM where
  id : String
  provisioningState : Option String
deriving Repr, DecidableEq

/-- Errors.  `backendErr throttled` stands for an error returned by an
Azure SDK call, carrying whether `isAzureRequestsThrottled` holds of it;
the remaining constructors are the `fmt.Errorf` errors built by
`azure_scale_set.go` itself, plus the errors propagated from the external
helpers. -/
inductive AzError where
  | backendErr (throttled : Bool)
  | vmssNotFound (name : String)
  | sizeMustBePositive
  | underInitialization (name : String)
  | sizeTooLarge (desired maxAllowed : Int)
  | minSizeReached
  | foreignGroup (inst : String)
  | notInKnownScaleSet (node : String)
  | belongsDifferentAsg (node : String)
  | lastSegmentErr (inst : String)
deriving Repr, DecidableEq

/-- Model of `isAzureRequestsThrottled` (helper defined outside this file): true
exactly for backend errors whose HTTP status is TooManyRequests; the
model's backend errors carry that classification. -/
def isAzureRequestsThrottled : AzError → Bool
  | .backendErr throttled => throttled
  | _ => false

/-- Backend calls issued by the driver, as recorded by the model. -/
inductive BackendCall where
  | listVMSS
  | listVMs (group : String)
  | createOrUpdate (group : String) (capacity : Int)
  | deleteInstances (group : String) (ids : List String)
deriving Repr, DecidableEq

/-- The process-wide `scaleSetStatusCache`: last refresh time and the
map from scale-set name to its descriptor (a Go map, modelled as an
association list where the *last* binding for a key wins, matching Go
map insertion). -/
structure StatusCache where
  lastRefresh : Int
  scaleSets : List (String × VMSS)
deriving Repr, DecidableEq

/-- Lookup in the modelled Go map: the last inserted binding wins. -/
def mapFind (m : List (String × VMSS)) (k : String) : Option VMSS :=
  m.reverse.lookup k

/-- Immutable configuration of one `ScaleSet` (from `NewScaleSet`), plus
the package-level refresh periods. -/
structure Config where
  name : String
  minSize : Int
  maxSize : Int
  sizeRefreshPeriod : Int
  instanceRefreshPeriod : Int
deriving Repr, DecidableEq

/-- Mutable state of one `ScaleSet` together with the process-wide status
cache it interacts with. -/
structure ScaleSetState where
  curSize : Int
  lastSizeRefresh : Int
  instanceCache : List Instance
  lastInstanceRefresh : Int
  statusCache : StatusCache
deriving Repr, DecidableEq

/-- Model of `invalidateInstanceCache`: mark the instance cache outdated by setting
`lastInstanceRefresh = now - vmssInstancesRefreshPeriod`. -/
def invalidateInstanceCache (cfg : Config) (s : ScaleSetState) (now : Int) : ScaleSetState :=
  { s with lastInstanceRefresh := now - cfg.instanceRefreshPeriod }

/-- Model of `invalidateStatusCacheWithLock`: rewind both the per-set size
timestamp and the process-wide cache timestamp by `sizeRefreshPeriod`. -/
def invalidateStatusCacheWithLock (cfg : Config) (s : ScaleSetState) (now : Int) : ScaleSetState :=
  { s with
      lastSizeRefresh := now - cfg.sizeRefreshPeriod,
      statusCache := { s.statusCache with lastRefresh := now - cfg.sizeRefreshPeriod } }

/-- Model of `getVMSSInfo`.  `fetch` is the result the backend would deliver for
`getAllVMSSInfo` (the `virtualMachineScaleSetsClient.List` call), issued
only when the cache is stale or misses. -/
def getVMSSInfo (cfg : Config) (c : StatusCache) (now : Int)
    (fetch : Except AzError (List VMSS)) :
    Except AzError VMSS × StatusCache × List BackendCall :=
  let fetchPath : Except AzError VMSS × StatusCache × List BackendCall :=
    match fetch with
    | .error e => (.error e, c, [.listVMSS])
    | .ok allVMSS =>
      let newStatus := allVMSS.map (fun v => (v.name, v))
      let c' : StatusCache := { lastRefresh := now, scaleSets := newStatus }
      match mapFind newStatus cfg.name with
      | none => (.error (.vmssNotFound cfg.name), c', [.listVMSS])
      | some vmss => (.ok vmss, c', [.listVMSS])
  if c.lastRefresh + cfg.sizeRefreshPeriod > now then
    match mapFind c.scaleSets cfg.name with
    | some status => (.ok status, c, [])
    | none => fetchPath
  else fetchPath

/-- Model of `getCurSize`: serve the cached size while fresh; otherwise refresh
through `getVMSSInfo`, returning the stale value (and bumping the
timestamp) on throttle, and on success invalidating the instance cache
when the capacity changed, then storing the new capacity and
timestamp. -/
def getCurSize (cfg : Config) (s : ScaleSetState) (now : Int)
    (fetch : Except AzError (List VMSS)) :
    Except AzError Int × ScaleSetState × List BackendCall :=
  if s.lastSizeRefresh + cfg.sizeRefreshPeriod > now then
    (.ok s.curSize, s, [])
  else
    match getVMSSInfo cfg s.statusCache now fetch with
    | (.error e, c', calls) =>
      if isAzureRequestsThrottled e then
        (.ok s.curSize, { s with lastSizeRefresh := now, statusCache := c' }, calls)
      else
        (.error e, { s with statusCache := c' }, calls)
    | (.ok vmss, c', calls) =>
      let s₁ := { s with statusCache := c' }
      let s₂ := if s.curSize ≠ vmss.capacity then invalidateInstanceCache cfg s₁ now else s₁
      (.ok vmss.capacity,
       { s₂ with curSize := vmss.capacity, lastSizeRefresh := now },
       calls)

/-- Model of `GetScaleSetSize` delegates to `getCurSize`. -/
def GetScaleSetSize (cfg : Config) (s : ScaleSetState) (now : Int)
    (fetch : Except AzError (List VMSS)) :
    Except AzError Int × ScaleSetState × List BackendCall :=
  getCurSize cfg s now fetch

/-- Model of `updateVMSSCapacity`: fetch the VMSS descriptor (via the status
cache), compose the update and issue `CreateOrUpdateAsync`; on issuance
success proactively set `curSize = size` and `lastSizeRefresh = now`.
`createRes` is the result the backend delivers for the
`CreateOrUpdateAsync` issuance.  (The Go code also writes the new
capacity through the cached descriptor's shared `Sku` pointer under
`vmssSizeMutex`; no claim reads that aliased value, so the write is not
modelled.)  The spawned `waitForUpdateVMSSCapacity` observer is modelled
as its own function below. -/
def updateVMSSCapacity (cfg : Config) (s : ScaleSetState) (now : Int) (size : Int)
    (fetch : Except AzError (List VMSS)) (createRes : Except AzError Unit) :
    Except AzError Unit × ScaleSetState × List BackendCall :=
  match getVMSSInfo cfg s.statusCache now fetch with
  | (.error e, c', calls) => (.error e, { s with statusCache := c' }, calls)
  | (.ok _vmssInfo, c', calls) =>
    let calls := calls ++ [.createOrUpdate cfg.name size]
    match createRes with
    | .error e => (.error e, { s with statusCache := c' }, calls)
    | .ok _ =>
      (.ok (), { s with statusCache := c', curSize := size, lastSizeRefresh := now }, calls)

/-- Model of `SetScaleSetSize`: takes the size lock and calls
`updateVMSSCapacity`. -/
def SetScaleSetSize (cfg : Config) (s : ScaleSetState) (now : Int) (size : Int)
    (fetch : Except AzError (List VMSS)) (createRes : Except AzError Unit) :
    Except AzError Unit × ScaleSetState × List BackendCall :=
  updateVMSSCapacity cfg s now size fetch createRes

/-- Model of `TargetSize` delegates to `GetScaleSetSize` (the `int64 → int`
conversion is the identity in the model). -/
def TargetSize (cfg : Config) (s : ScaleSetState) (now : Int)
    (fetch : Except AzError (List VMSS)) :
    Except AzError Int × ScaleSetState × List BackendCall :=
  GetScaleSetSize cfg s now fetch

/-- Model of `IncreaseSize`: reject non-positive delta, refresh the size, reject
the `-1` sentinel and a target above `maxSize`, otherwise delegate to
`SetScaleSetSize(size + delta)`.  `fetch` serves the `GetScaleSetSize`
refresh, `fetch2` the inner `getVMSSInfo` of the capacity update. -/
def IncreaseSize (cfg : Config) (s : ScaleSetState) (now : Int) (delta : Int)
    (fetch fetch2 : Except AzError (List VMSS)) (createRes : Except AzError Unit) :
    Except AzError Unit × ScaleSetState × List BackendCall :=
  if delta ≤ 0 then
    (.error .sizeMustBePositive, s, [])
  else
    match GetScaleSetSize cfg s now fetch with
    | (.error e, s₁, calls) => (.error e, s₁, calls)
    | (.ok size, s₁, calls) =>
      if size = -1 then
        (.error (.underInitialization cfg.name), s₁, calls)
      else if size + delta > cfg.maxSize then
        (.error (.sizeTooLarge (size + delta) cfg.maxSize), s₁, calls)
      else
        let (r, s₂, calls₂) := SetScaleSetSize cfg s₁ now (size + delta) fetch2 createRes
        (r, s₂, calls ++ calls₂)

/-- Model of `waitForUpdateVMSSCapacity` (the observer spawned by
`updateVMSSCapacity`): on success invalidate the instance cache; on
failure (non-success response, hence a non-nil error reaching the
deferred handler) invalidate the size caches via
`invalidateStatusCacheWithLock`. -/
def waitForUpdateVMSSCapacity (cfg : Config) (s : ScaleSetState) (now : Int)
    (success : Bool) : ScaleSetState :=
  if success then invalidateInstanceCache cfg s now
  else invalidateStatusCacheWithLock cfg s now

/-- Model of `waitForDeleteInstances` (the observer spawned by `DeleteInstances`):
it only logs the outcome — success or failure — and touches no cache. -/
def waitForDeleteInstances (s : ScaleSetState) (_success : Bool) : ScaleSetState :=
  s

/-- ASCII lowercasing of a string, character by character (the model of
`strings.ToLower` for the resource identifiers of this driver, which are
ASCII). -/
def toLowerStr (s : String) : String :=
  ⟨s.data.map Char.toLower⟩

/-- Model of `strings.EqualFold` on the identifiers appearing in this file
(case-insensitive equality; modelled via lowercasing). -/
def equalFold (a b : String) : Bool :=
  toLowerStr a == toLowerStr b

/-- Model of `getInstanceByProviderID`: first instance of the cache with the given
provider id. -/
def getInstanceByProviderID (cache : List Instance) (providerID : String) : Option Instance :=
  cache.find? (fun inst => inst.id == providerID)

/-- The id-collection loop of `DeleteInstances`: resolve each instance's
group via `GetAsgForInstance` (`getAsg`; the Go code dereferences the
returned group without a nil check, so the model's lookup returns the
group id or an error), error on a group that does not match `commonAsg`,
skip instances whose cached state is already deleting, and collect the
last path segment of each remaining instance. -/
def eligibleIds (getAsg lastSegment : String → Except AzError String)
    (cache : List Instance) (commonAsg : String) :
    List String → Except AzError (List String)
  | [] => .ok []
  | inst :: rest =>
    match getAsg inst with
    | .error e => .error e
    | .ok asg =>
      if ¬ equalFold asg commonAsg then
        .error (.foreignGroup inst)
      else if (getInstanceByProviderID cache inst).any
          (fun cpi => cpi.status == some .deleting) then
        eligibleIds getAsg lastSegment cache commonAsg rest
      else
        match lastSegment inst with
        | .error e => .error e
        | .ok instanceID =>
          (eligibleIds getAsg lastSegment cache commonAsg rest).map (instanceID :: ·)

/-- Model of `DeleteInstances`: empty input succeeds immediately; otherwise
resolve the first instance's group as `commonAsg`, run the collection
loop, succeed silently when no id is eligible, issue
`DeleteInstancesAsync` against `commonAsg` (under the instance lock) and,
on issuance success, proactively decrement `curSize` by the number of
issued ids.  `delRes` is the backend's issuance result; the spawned
`waitForDeleteInstances` observer is modelled separately. -/
def DeleteInstances (s : ScaleSetState)
    (getAsg lastSegment : String → Except AzError String)
    (instances : List String) (delRes : Except AzError Unit) :
    Except AzError Unit × ScaleSetState × List BackendCall :=
  match instances with
  | [] => (.ok (), s, [])
  | first :: _ =>
    match getAsg first with
    | .error e => (.error e, s, [])
    | .ok commonAsg =>
      match eligibleIds getAsg lastSegment s.instanceCache commonAsg instances with
      | .error e => (.error e, s, [])
      | .ok [] => (.ok (), s, [])
      | .ok instanceIDs =>
        match delRes with
        | .error e => (.error e, s, [.deleteInstances commonAsg instanceIDs])
        | .ok _ =>
          (.ok (),
           { s with curSize := s.curSize - instanceIDs.length },
           [.deleteInstances commonAsg instanceIDs])

/-- A node as consumed by `Belongs` / `DeleteNodes`: its name and its
`Spec.ProviderID`. -/
structure Node where
  name : String
  providerID : String
deriving Repr, DecidableEq

/-- Model of `Belongs`: resolve the node's provider id to its owning group via the
manager (`getAsgOpt`, which may report no known group), and compare that
group to this scale set case-insensitively. -/
def Belongs (cfg : Config) (getAsgOpt : String → Except AzError (Option String))
    (node : Node) : Except AzError Bool :=
  match getAsgOpt node.providerID with
  | .error e => .error e
  | .ok none => .error (.notInKnownScaleSet node.name)
  | .ok (some targetAsg) => .ok (equalFold targetAsg cfg.name)

/-- The verification loop of `DeleteNodes`: every node must `Belongs` to
this scale set; collect the provider ids. -/
def checkNodes (cfg : Config) (getAsgOpt : String → Except AzError (Option String)) :
    List Node → Except AzError (List String)
  | [] => .ok []
  | node :: rest =>
    match Belongs cfg getAsgOpt node with
    | .error e => .error e
    | .ok belongs =>
      if belongs = false then .error (.belongsDifferentAsg node.name)
      else (checkNodes cfg getAsgOpt rest).map (node.providerID :: ·)

/-- Model of `DeleteNodes`: refresh the size, refuse at `size ≤ minSize`, verify
membership of every node, then delegate to `DeleteInstances` on the
collected provider ids.  In the Go code `Belongs` and the collection
loop of `DeleteInstances` call the same manager lookup; the model passes
it in both forms (`getAsgOpt` for `Belongs`, `getAsg` for
`DeleteInstances`). -/
def DeleteNodes (cfg : Config) (s : ScaleSetState) (now : Int)
    (fetch : Except AzError (List VMSS))
    (getAsgOpt : String → Except AzError (Option String))
    (getAsg lastSegment : String → Except AzError String)
    (nodes : List Node) (delRes : Except AzError Unit) :
    Except AzError Unit × ScaleSetState × List BackendCall :=
  match GetScaleSetSize cfg s now fetch with
  | (.error e, s₁, calls) => (.error e, s₁, calls)
  | (.ok size, s₁, calls) =>
    if size ≤ cfg.minSize then
      (.error .minSizeReached, s₁, calls)
    else
      match checkNodes cfg getAsgOpt nodes with
      | .error e => (.error e, s₁, calls)
      | .ok refs =>
        let (r, s₂, calls₂) := DeleteInstances s₁ getAsg lastSegment refs delRes
        (r, s₂, calls ++ calls₂)

/-- Modelled from the spec: `convertResourceGroupNameToLower` is defined
outside this source file; the spec describes the normalization as
producing "a canonical lowercased form" of the identifier, so the model
lowercases the whole resource path (and never fails). -/
def convertResourceGroupNameToLower (id : String) : Except AzError String :=
  .ok (toLowerStr id)

/-- Model of `instanceStatusFromVM`: a nil `ProvisioningState` yields a nil
status; otherwise `Deleting` and `Creating` map to themselves and every
other state maps to `Running`. -/
def instanceStatusFromVM (vm : VMSSVM) : Option InstanceState :=
  match vm.provisioningState with
  | none => none
  | some ps =>
    if ps = "Deleting" then some .deleting
    else if ps = "Creating" then some .creating
    else some .running

/-! ### Lock traces

The three locks of the concurrency design (`sizeMutex`,
`instanceMutex`, `scaleSetStatusCache.mutex`) and the sequence of
acquire / release / backend-call events performed by the size-refresh
path, read off the source line by line.  (`vmssSizeMutex`, which guards
only the shared `Sku` pointer, is not one of the three and is not
traced.) -/

/-- The three locks of the driver's concurrency design. -/
inductive Lock where
  | sizeLock
  | instanceLock
  | groupCacheLock
deriving Repr, DecidableEq

/-- One event of a lock trace: acquiring or releasing a lock, or a
backend call being in flight. -/
inductive LockEvent where
  | acq (l : Lock)
  | rel (l : Lock)
  | callBackend (c : BackendCall)
deriving Repr, DecidableEq

/-- Lock trace of `getVMSSInfo`: the status-cache mutex is taken on
entry and released (deferred) on return; the backend `List` call, when
the cache misses or is stale (`cacheHit = false`), happens between the
two. -/
def getVMSSInfoEvents (cacheHit : Bool) : List LockEvent :=
  if cacheHit then
    [.acq .groupCacheLock, .rel .groupCacheLock]
  else
    [.acq .groupCacheLock, .callBackend .listVMSS, .rel .groupCacheLock]

/-- Lock trace of `invalidateInstanceCache`: take and release the
instance mutex. -/
def invalidateInstanceCacheEvents : List LockEvent :=
  [.acq .instanceLock, .rel .instanceLock]

/-- Lock trace of `getCurSize`: the size mutex is held (deferred
release) for the whole body; when the cached size is stale
(`fresh = false`) the body runs `getVMSSInfo` and — on a successful
fetch (`errorPath = false`) whose capacity changed
(`sizeChanged = true`) — `invalidateInstanceCache`. -/
def getCurSizeEvents (fresh cacheHit errorPath sizeChanged : Bool) : List LockEvent :=
  if fresh then
    [.acq .sizeLock, .rel .sizeLock]
  else
    [.acq .sizeLock] ++ getVMSSInfoEvents cacheHit ++
      (if errorPath then []
       else if sizeChanged then invalidateInstanceCacheEvents else []) ++
      [.rel .sizeLock]

/-- The multiset of locks held at each backend call of a trace, given
the locks already held. -/
def heldAtBackendCalls : List Lock → List LockEvent → List (List Lock)
  | _, [] => []
  | held, .acq l :: rest => heldAtBackendCalls (l :: held) rest
  | held, .rel l :: rest => heldAtBackendCalls (held.erase l) rest
  | held, .callBackend _ :: rest => held :: heldAtBackendCalls held rest

/-- The set of locks held after each event of a trace. -/
def heldSets : List Lock → List LockEvent → List (List Lock)
  | _, [] => []
  | held, .acq l :: rest => (l :: held) :: heldSets (l :: held) rest
  | held, .rel l :: rest => held.erase l :: heldSets (held.erase l) rest
  | held, .callBackend _ :: rest => held :: heldSets held rest

/-- Model of `buildInstanceCache`: drop entries whose resource id is the empty
string (and those the normalization rejects), and build each surviving
instance with the `azure://`-prefixed normalized id and the status
derived from the provisioning state. -/
def buildInstanceCache : List VMSSVM → List Instance
  | [] => []
  | vm :: rest =>
    if vm.id.length = 0 then
      buildInstanceCache rest
    else
      match convertResourceGroupNameToLower vm.id with
      | .error _ => buildInstanceCache rest
      | .ok resourceID =>
        { id := "azure://" ++ resourceID, status := instanceStatusFromVM vm }
          :: buildInstanceCache rest

/-! ## Helper lemmas -/

theorem equalFold_eq_true_iff (a b : String) :
    equalFold a b = true ↔ toLowerStr a = toLowerStr b := by
  simp [equalFold]

theorem getVMSSInfo_calls (cfg : Config) (c : StatusCache) (now : Int)
    (fetch : Except AzError (List VMSS)) :
    (getVMSSInfo cfg c now fetch).2.2 = [] ∨
    (getVMSSInfo cfg c now fetch).2.2 = [BackendCall.listVMSS] := by
  simp only [getVMSSInfo]
  split
  · split
    · left; rfl
    · cases fetch with
      | error e => right; rfl
      | ok l =>
        simp only
        split <;> (right; rfl)
  · cases fetch with
    | error e => right; rfl
    | ok l =>
      simp only
      split <;> (right; rfl)

theorem getCurSize_calls (cfg : Config) (s : ScaleSetState) (now : Int)
    (fetch : Except AzError (List VMSS)) :
    (getCurSize cfg s now fetch).2.2 = [] ∨
    (getCurSize cfg s now fetch).2.2 = [BackendCall.listVMSS] := by
  simp only [getCurSize]
  split
  · left; rfl
  · rcases h : getVMSSInfo cfg s.statusCache now fetch with ⟨res, c', calls⟩
    have hcalls := getVMSSInfo_calls cfg s.statusCache now fetch
    rw [h] at hcalls
    cases res with
    | error e =>
      simp only [h]
      split <;> exact hcalls
    | ok vmss =>
      simp only [h]
      exact hcalls

/-! ## Claims -/

/-- C3: the size refresh (`getCurSize`, backing `TargetSize`) follows
the specified steps: while `now - lastSizeRefresh < sizeRefreshPeriod`
it returns `curSize` unchanged with no backend call; when the refresh is
throttled it sets `lastSizeRefresh` to now and returns the stale cached
value, so a subsequent call within the period returns the same value
with no backend call; on success, if the returned capacity differs from
`curSize` it invalidates the instance cache, then stores the new
capacity and timestamp. -/
theorem getCurSize_spec (cfg : Config) (s : ScaleSetState) (now : Int)
    (fetch : Except AzError (List VMSS)) :
    (s.lastSizeRefresh + cfg.sizeRefreshPeriod > now →
       getCurSize cfg s now fetch = (.ok s.curSize, s, [])) ∧
    (¬ s.lastSizeRefresh + cfg.sizeRefreshPeriod > now →
     ¬ s.statusCache.lastRefresh + cfg.sizeRefreshPeriod > now →
     (∀ e, fetch = .error e → isAzureRequestsThrottled e = true →
        getCurSize cfg s now fetch =
          (.ok s.curSize, { s with lastSizeRefresh := now }, [.listVMSS]) ∧
        (∀ now₂ fetch₂, now₂ < now + cfg.sizeRefreshPeriod →
           getCurSize cfg { s with lastSizeRefresh := now } now₂ fetch₂ =
             (.ok s.curSize, { s with lastSizeRefresh := now }, []))) ∧
     (∀ allVMSS vmss, fetch = .ok allVMSS →
        mapFind (allVMSS.map fun v => (v.name, v)) cfg.name = some vmss →
        getCurSize cfg s now fetch =
          (.ok vmss.capacity,
           { s with
               curSize := vmss.capacity,
               lastSizeRefresh := now,
               lastInstanceRefresh :=
                 if s.curSize ≠ vmss.capacity then now - cfg.instanceRefreshPeriod
                 else s.lastInstanceRefresh,
               statusCache := ⟨now, allVMSS.map fun v => (v.name, v)⟩ },
           [.listVMSS]))) := by
  constructor
  · intro hfresh
    simp only [getCurSize]
    rw [if_pos hfresh]
  · intro hstale hcstale
    constructor
    · intro e hfetch hthr
      subst hfetch
      have hvmss : getVMSSInfo cfg s.statusCache now (.error e) =
          (.error e, s.statusCache, [.listVMSS]) := by
        simp only [getVMSSInfo]
        rw [if_neg hcstale]
      constructor
      · simp only [getCurSize]
        rw [if_neg hstale, hvmss]
        simp [hthr]
      · intro now₂ fetch₂ hlt
        simp only [getCurSize]
        rw [if_pos (by simpa using hlt)]
    · intro allVMSS vmss hfetch hfind
      subst hfetch
      have hvmss : getVMSSInfo cfg s.statusCache now (.ok allVMSS) =
          (.ok vmss, ⟨now, allVMSS.map fun v => (v.name, v)⟩, [.listVMSS]) := by
        simp only [getVMSSInfo]
        rw [if_neg hcstale]
        simp only [hfind]
      simp only [getCurSize]
      rw [if_neg hstale, hvmss]
      by_cases hne : s.curSize ≠ vmss.capacity
      · rw [if_pos hne]
        simp [invalidateInstanceCache, hne]
      · rw [if_neg hne]
        simp [hne]

/-- Witness for C3: a concrete run of each branch of
`getCurSize_spec` — the fresh branch at `now = 10`, the throttled branch
and its follow-up call, and the success branch with a capacity change,
for a scale set with `curSize = 4`, period `15`. -/
theorem getCurSize_spec_witness :
    (getCurSize ⟨"a", 1, 5, 15, 300⟩ ⟨4, 0, [], 0, ⟨0, []⟩⟩ 10 (.ok []) =
       (.ok 4, ⟨4, 0, [], 0, ⟨0, []⟩⟩, [])) ∧
    (getCurSize ⟨"a", 1, 5, 15, 300⟩ ⟨4, 0, [], 0, ⟨0, []⟩⟩ 20
        (.error (.backendErr true)) =
       (.ok 4, ⟨4, 20, [], 0, ⟨0, []⟩⟩, [.listVMSS])) ∧
    (getCurSize ⟨"a", 1, 5, 15, 300⟩ ⟨4, 20, [], 0, ⟨0, []⟩⟩ 30 (.ok []) =
       (.ok 4, ⟨4, 20, [], 0, ⟨0, []⟩⟩, [])) ∧
    (getCurSize ⟨"a", 1, 5, 15, 300⟩ ⟨4, 0, [], 0, ⟨0, []⟩⟩ 20
        (.ok [⟨"a", 7⟩]) =
       (.ok 7, ⟨7, 20, [], 20 - 300, ⟨20, [("a", ⟨"a", 7⟩)]⟩⟩, [.listVMSS])) := by
  refine ⟨?_, ?_, ?_, ?_⟩
  · exact (getCurSize_spec ⟨"a", 1, 5, 15, 300⟩ ⟨4, 0, [], 0, ⟨0, []⟩⟩ 10 (.ok [])).1
      (by decide)
  · exact (((getCurSize_spec ⟨"a", 1, 5, 15, 300⟩ ⟨4, 0, [], 0, ⟨0, []⟩⟩ 20
      (.error (.backendErr true))).2 (by decide) (by decide)).1 (.backendErr true)
      rfl (by decide)).1
  · exact (((getCurSize_spec ⟨"a", 1, 5, 15, 300⟩ ⟨4, 0, [], 0, ⟨0, []⟩⟩ 20
      (.error (.backendErr true))).2 (by decide) (by decide)).1 (.backendErr true)
      rfl (by decide)).2 30 (.ok []) (by decide)
  · have := (((getCurSize_spec ⟨"a", 1, 5, 15, 300⟩ ⟨4, 0, [], 0, ⟨0, []⟩⟩ 20
      (.ok [⟨"a", 7⟩])).2 (by decide) (by decide)).2 [⟨"a", 7⟩] ⟨"a", 7⟩ rfl
      (by decide))
    simpa using this

/-- C4: `IncreaseSize(delta)` errors on `delta ≤ 0`; errors when the
observed size is the not-yet-observed sentinel `-1`; errors with no
backend capacity call when `size + delta > maxSize`; and otherwise
delegates to `SetScaleSetSize (size + delta)`. -/
theorem increaseSize_spec (cfg : Config) (s : ScaleSetState) (now delta : Int)
    (fetch fetch2 : Except AzError (List VMSS)) (createRes : Except AzError Unit) :
    (delta ≤ 0 →
       IncreaseSize cfg s now delta fetch fetch2 createRes =
         (.error .sizeMustBePositive, s, [])) ∧
    (0 < delta →
     ∀ size s₁ calls, getCurSize cfg s now fetch = (.ok size, s₁, calls) →
       (size = -1 →
          IncreaseSize cfg s now delta fetch fetch2 createRes =
            (.error (.underInitialization cfg.name), s₁, calls)) ∧
       (size ≠ -1 → cfg.maxSize < size + delta →
          IncreaseSize cfg s now delta fetch fetch2 createRes =
            (.error (.sizeTooLarge (size + delta) cfg.maxSize), s₁, calls) ∧
          ∀ g n, BackendCall.createOrUpdate g n ∉ calls) ∧
       (size ≠ -1 → size + delta ≤ cfg.maxSize →
          IncreaseSize cfg s now delta fetch fetch2 createRes =
            ((SetScaleSetSize cfg s₁ now (size + delta) fetch2 createRes).1,
             (SetScaleSetSize cfg s₁ now (size + delta) fetch2 createRes).2.1,
             calls ++ (SetScaleSetSize cfg s₁ now (size + delta) fetch2 createRes).2.2))) := by
  constructor
  · intro hle
    simp only [IncreaseSize]
    rw [if_pos hle]
  · intro hpos size s₁ calls h
    have hnle : ¬ delta ≤ 0 := not_le.mpr hpos
    have hG : GetScaleSetSize cfg s now fetch = (.ok size, s₁, calls) := h
    refine ⟨?_, ?_, ?_⟩
    · intro hsent
      simp only [IncreaseSize]
      rw [if_neg hnle, hG]
      simp [hsent]
    · intro hsent hover
      constructor
      · simp only [IncreaseSize]
        rw [if_neg hnle, hG]
        simp only [if_neg hsent]
        rw [if_pos hover]
      · intro g n hmem
        rcases getCurSize_calls cfg s now fetch with hc | hc <;>
        · rw [h] at hc
          simp only [Prod.snd] at hc
          subst hc
          simp at hmem
    · intro hsent hfits
      have hnover : ¬ size + delta > cfg.maxSize := not_lt.mpr hfits
      simp only [IncreaseSize]
      rw [if_neg hnle, hG]
      simp only [if_neg hsent]
      rw [if_neg hnover]

/-- Witness for C4: with `minSize = 1`, `maxSize = 5` and a freshly
cached size of `4`, `IncreaseSize` rejects `delta = 0`, rejects
`delta = 2` (which would exceed the max) without a capacity call, and
performs the capacity update for `delta = 1`; the sentinel branch fires
for a set whose cached size is `-1`. -/
theorem increaseSize_spec_witness :
    (IncreaseSize ⟨"a", 1, 5, 15, 300⟩ ⟨4, 0, [], 0, ⟨0, []⟩⟩ 10 0 (.ok []) (.ok [])
        (.ok ()) = (.error .sizeMustBePositive, ⟨4, 0, [], 0, ⟨0, []⟩⟩, [])) ∧
    (IncreaseSize ⟨"a", 1, 5, 15, 300⟩ ⟨-1, 0, [], 0, ⟨0, []⟩⟩ 10 1 (.ok []) (.ok [])
        (.ok ()) = (.error (.underInitialization "a"), ⟨-1, 0, [], 0, ⟨0, []⟩⟩, [])) ∧
    (IncreaseSize ⟨"a", 1, 5, 15, 300⟩ ⟨4, 0, [], 0, ⟨0, []⟩⟩ 10 2 (.ok []) (.ok [])
        (.ok ()) = (.error (.sizeTooLarge 6 5), ⟨4, 0, [], 0, ⟨0, []⟩⟩, []) ∧
       ∀ g n, BackendCall.createOrUpdate g n ∉ ([] : List BackendCall)) ∧
    (IncreaseSize ⟨"a", 1, 5, 15, 300⟩ ⟨4, 0, [], 0, ⟨0, []⟩⟩ 10 1
        (.ok [⟨"a", 4⟩]) (.ok [⟨"a", 4⟩]) (.ok ()) =
      ((SetScaleSetSize ⟨"a", 1, 5, 15, 300⟩ ⟨4, 0, [], 0, ⟨0, []⟩⟩ 10 5
          (.ok [⟨"a", 4⟩]) (.ok ())).1,
       (SetScaleSetSize ⟨"a", 1, 5, 15, 300⟩ ⟨4, 0, [], 0, ⟨0, []⟩⟩ 10 5
          (.ok [⟨"a", 4⟩]) (.ok ())).2.1,
       [] ++ (SetScaleSetSize ⟨"a", 1, 5, 15, 300⟩ ⟨4, 0, [], 0, ⟨0, []⟩⟩ 10 5
          (.ok [⟨"a", 4⟩]) (.ok ())).2.2)) := by
  refine ⟨?_, ?_, ?_, ?_⟩
  · exact (increaseSize_spec ⟨"a", 1, 5, 15, 300⟩ ⟨4, 0, [], 0, ⟨0, []⟩⟩ 10 0 (.ok [])
      (.ok []) (.ok ())).1 (by decide)
  · exact (((increaseSize_spec ⟨"a", 1, 5, 15, 300⟩ ⟨-1, 0, [], 0, ⟨0, []⟩⟩ 10 1
      (.ok []) (.ok []) (.ok ())).2 (by decide) (-1) ⟨-1, 0, [], 0, ⟨0, []⟩⟩ []
      (by decide)).1 rfl)
  · exact (((increaseSize_spec ⟨"a", 1, 5, 15, 300⟩ ⟨4, 0, [], 0, ⟨0, []⟩⟩ 10 2
      (.ok []) (.ok []) (.ok ())).2 (by decide) 4 ⟨4, 0, [], 0, ⟨0, []⟩⟩ []
      (by decide)).2.1 (by decide) (by decide))
  · exact (((increaseSize_spec ⟨"a", 1, 5, 15, 300⟩ ⟨4, 0, [], 0, ⟨0, []⟩⟩ 10 1
      (.ok [⟨"a", 4⟩]) (.ok [⟨"a", 4⟩]) (.ok ())).2 (by decide) 4
      ⟨4, 0, [], 0, ⟨0, []⟩⟩ [] (by decide)).2.2 (by decide) (by decide))

/-- C1 (counterexample): with `maxSize = 3`, `SetScaleSetSize 5` does
not error — it issues the backend capacity call for `5` and proactively
stores `curSize = 5`, so the claimed `n ≤ maxSize` validation does not
exist. -/
theorem setScaleSetSize_counterexample :
    (5 : Int) > (⟨"a", 1, 3, 15, 300⟩ : Config).maxSize ∧
    SetScaleSetSize ⟨"a", 1, 3, 15, 300⟩ ⟨3, 0, [], 0, ⟨0, []⟩⟩ 100 5
        (.ok [⟨"a", 3⟩]) (.ok ()) =
      (.ok (), ⟨5, 100, [], 0, ⟨100, [("a", ⟨"a", 3⟩)]⟩⟩,
       [.listVMSS, .createOrUpdate "a" 5]) := by
  exact ⟨by decide, by decide⟩

/-- C1 (amended): `SetScaleSetSize(n)` performs no `n ≤ maxSize`
validation.  Whenever the descriptor fetch succeeds it issues the
backend capacity call for any `n` — `maxSize` is not consulted — and on
successful issuance proactively updates `curSize = n` and
`lastSizeRefresh = now`. -/
theorem setScaleSetSize_no_max_validation (cfg : Config) (s : ScaleSetState)
    (now size : Int) (fetch : Except AzError (List VMSS))
    (info : VMSS) (c' : StatusCache) (calls : List BackendCall) :
    getVMSSInfo cfg s.statusCache now fetch = (.ok info, c', calls) →
    SetScaleSetSize cfg s now size fetch (.ok ()) =
      (.ok (), { s with statusCache := c', curSize := size, lastSizeRefresh := now },
       calls ++ [.createOrUpdate cfg.name size]) := by
  intro h
  simp only [SetScaleSetSize, updateVMSSCapacity]
  rw [h]

/-- Witness for C1 (amended): the concrete run of
`setScaleSetSize_no_max_validation` at `maxSize = 3`, `n = 5`. -/
theorem setScaleSetSize_no_max_validation_witness :
    SetScaleSetSize ⟨"a", 1, 3, 15, 300⟩ ⟨3, 0, [], 0, ⟨0, []⟩⟩ 100 5
        (.ok [⟨"a", 3⟩]) (.ok ()) =
      (.ok (), ⟨5, 100, [], 0, ⟨100, [("a", ⟨"a", 3⟩)]⟩⟩,
       [.listVMSS] ++ [.createOrUpdate "a" 5]) :=
  setScaleSetSize_no_max_validation ⟨"a", 1, 3, 15, 300⟩ ⟨3, 0, [], 0, ⟨0, []⟩⟩
    100 5 (.ok [⟨"a", 3⟩]) ⟨"a", 3⟩ ⟨100, [("a", ⟨"a", 3⟩)]⟩ [.listVMSS] (by decide)

/-- C2 (counterexample): deleting a one-element list whose instance is
cached as already deleting succeeds but leaves `curSize` unchanged, so
`curSize` does not decrease by `|I| = 1`. -/
theorem deleteInstances_decrement_counterexample :
    (["azure://sub/1"] : List String).length = 1 ∧
    DeleteInstances ⟨5, 0, [⟨"azure://sub/1", some .deleting⟩], 0, ⟨0, []⟩⟩
        (fun _ => .ok "g") (fun _ => .ok "1") ["azure://sub/1"] (.ok ()) =
      (.ok (), ⟨5, 0, [⟨"azure://sub/1", some .deleting⟩], 0, ⟨0, []⟩⟩, []) ∧
    (5 : Int) - 1 ≠ 5 := by
  exact ⟨rfl, by decide, by decide⟩

/-- C2 (amended): after a successful `DeleteInstances(I)`, `curSize` has
decreased by exactly the number of ids issued to the backend — the
instances of `I` that were eligible (not skipped as already deleting);
in particular it is unchanged when `I` is empty or no instance was
eligible. -/
theorem deleteInstances_decrement_eligible (s : ScaleSetState)
    (getAsg lastSegment : String → Except AzError String)
    (delRes : Except AzError Unit) :
    DeleteInstances s getAsg lastSegment [] delRes = (.ok (), s, []) ∧
    ∀ first rest commonAsg ids,
      getAsg first = .ok commonAsg →
      eligibleIds getAsg lastSegment s.instanceCache commonAsg (first :: rest) = .ok ids →
      (DeleteInstances s getAsg lastSegment (first :: rest) delRes).1 = .ok () →
      (DeleteInstances s getAsg lastSegment (first :: rest) delRes).2.1.curSize =
        s.curSize - ids.length := by
  constructor
  · rfl
  · intro first rest commonAsg ids hasg helig hok
    cases ids with
    | nil =>
      simp only [DeleteInstances, hasg, helig]
      simp
    | cons i is =>
      cases delRes with
      | error e =>
        exfalso
        simp only [DeleteInstances, hasg, helig] at hok
        simp at hok
      | ok u =>
        simp only [DeleteInstances, hasg, helig]

/-- Witness for C2 (amended): one eligible instance, successful
issuance, `curSize` drops by the length of the issued id list. -/
theorem deleteInstances_decrement_eligible_witness :
    (DeleteInstances ⟨5, 0, [], 0, ⟨0, []⟩⟩ (fun _ => .ok "g") (fun _ => .ok "1")
        ["azure://sub/1"] (.ok ())).2.1.curSize =
      (⟨5, 0, [], 0, ⟨0, []⟩⟩ : ScaleSetState).curSize -
        (["1"] : List String).length :=
  (deleteInstances_decrement_eligible ⟨5, 0, [], 0, ⟨0, []⟩⟩
      (fun _ => .ok "g") (fun _ => .ok "1") (.ok ())).2
    "azure://sub/1" [] "g" ["1"] rfl rfl rfl

theorem eligibleIds_ok_groups (getAsg lastSegment : String → Except AzError String)
    (cache : List Instance) (commonAsg : String) :
    ∀ l ids, eligibleIds getAsg lastSegment cache commonAsg l = .ok ids →
      ∀ x ∈ l, ∃ gx, getAsg x = .ok gx ∧ equalFold gx commonAsg = true := by
  intro l
  induction l with
  | nil =>
    intro ids _ x hx
    cases hx
  | cons inst rest ih =>
    intro ids h x hx
    simp only [eligibleIds] at h
    cases hasg : getAsg inst with
    | error e =>
      simp [hasg] at h
    | ok asg =>
      cases hfold : equalFold asg commonAsg with
      | false =>
        simp [hasg, hfold] at h
      | true =>
        simp only [hasg, hfold] at h
        rw [if_neg (by simp)] at h
        rcases List.mem_cons.mp hx with hxe | hxr
        · subst hxe
          exact ⟨asg, hasg, hfold⟩
        · cases hskip : ((getInstanceByProviderID cache inst).any
              (fun cpi => cpi.status == some .deleting)) with
          | true =>
            rw [if_pos hskip] at h
            exact ih ids h x hxr
          | false =>
            rw [if_neg (by simp [hskip])] at h
            cases hseg : lastSegment inst with
            | error e =>
              simp [hseg] at h
            | ok iid =>
              simp only [hseg] at h
              cases hrest : eligibleIds getAsg lastSegment cache commonAsg rest with
              | error e =>
                rw [hrest] at h
                simp [Except.map] at h
              | ok ids' =>
                exact ih ids' hrest x hxr

/-- C5: whenever a `DeleteInstances` request contains two instances that
resolve to different (non-case-equal) groups, the call returns an error,
issues no backend call and leaves the state — in particular `curSize` —
unchanged. -/
theorem deleteInstances_mixed_groups (s : ScaleSetState)
    (getAsg lastSegment : String → Except AzError String)
    (instances : List String) (delRes : Except AzError Unit)
    (a b ga gb : String) :
    a ∈ instances → b ∈ instances →
    getAsg a = .ok ga → getAsg b = .ok gb →
    equalFold ga gb = false →
    ∃ e, DeleteInstances s getAsg lastSegment instances delRes = (.error e, s, []) := by
  intro ha hb hga hgb hne
  cases instances with
  | nil => cases ha
  | cons first rest =>
    cases hfirst : getAsg first with
    | error e =>
      exact ⟨e, by simp only [DeleteInstances, hfirst]⟩
    | ok commonAsg =>
      cases helig : eligibleIds getAsg lastSegment s.instanceCache commonAsg (first :: rest) with
      | error e =>
        exact ⟨e, by simp only [DeleteInstances, hfirst, helig]⟩
      | ok ids =>
        exfalso
        obtain ⟨ga', hga', hfa⟩ :=
          eligibleIds_ok_groups getAsg lastSegment s.instanceCache commonAsg
            (first :: rest) ids helig a ha
        obtain ⟨gb', hgb', hfb⟩ :=
          eligibleIds_ok_groups getAsg lastSegment s.instanceCache commonAsg
            (first :: rest) ids helig b hb
        rw [hga] at hga'
        rw [hgb] at hgb'
        injection hga' with h1
        injection hgb' with h2
        subst h1
        subst h2
        rw [equalFold_eq_true_iff] at hfa hfb
        have htrue : equalFold ga gb = true :=
          (equalFold_eq_true_iff ga gb).mpr (hfa.trans hfb.symm)
        rw [htrue] at hne
        cases hne

/-- Witness for C5: deleting `[A, C]` where `A` resolves to `G1` and `C`
to `G2` errors with no backend call and an unchanged state. -/
theorem deleteInstances_mixed_groups_witness :
    ∃ e, DeleteInstances ⟨5, 0, [], 0, ⟨0, []⟩⟩
        (fun x => if x = "A" then .ok "G1" else .ok "G2")
        (fun _ => .ok "0") ["A", "C"] (.ok ()) =
      (.error e, ⟨5, 0, [], 0, ⟨0, []⟩⟩, []) :=
  deleteInstances_mixed_groups ⟨5, 0, [], 0, ⟨0, []⟩⟩
    (fun x => if x = "A" then .ok "G1" else .ok "G2") (fun _ => .ok "0")
    ["A", "C"] (.ok ()) "A" "C" "G1" "G2"
    (by decide) (by decide) (by decide) (by decide) (by decide)

/-- C10: a successful `DeleteInstances` issues its backend delete call
against the group owning the *first* instance of the list (as resolved
by the manager) — the receiving scale set's own name is not consulted
(it is not even an input of the operation, matching the Go code, which
passes `commonAsg.Id()` to the backend) — while the proactive decrement
is applied to this scale set's own `curSize`; the same-group check
compares the instances only with each other. -/
theorem deleteInstances_targets_first_group (s : ScaleSetState)
    (getAsg lastSegment : String → Except AzError String)
    (first : String) (rest : List String) (commonAsg : String) (ids : List String) :
    getAsg first = .ok commonAsg →
    eligibleIds getAsg lastSegment s.instanceCache commonAsg (first :: rest) = .ok ids →
    ids ≠ [] →
    DeleteInstances s getAsg lastSegment (first :: rest) (.ok ()) =
      (.ok (), { s with curSize := s.curSize - ids.length },
       [.deleteInstances commonAsg ids]) := by
  intro hasg helig hne
  cases ids with
  | nil => exact absurd rfl hne
  | cons i is => simp only [DeleteInstances, hasg, helig]

/-- Witness for C10: the resolved common group `"other-group"` differs
from any receiving set's name; the delete call still targets
`"other-group"` and the local `curSize` is decremented. -/
theorem deleteInstances_targets_first_group_witness :
    DeleteInstances ⟨5, 0, [], 0, ⟨0, []⟩⟩ (fun _ => .ok "other-group")
        (fun _ => .ok "3") ["azure://x/3"] (.ok ()) =
      (.ok (),
       { (⟨5, 0, [], 0, ⟨0, []⟩⟩ : ScaleSetState) with
           curSize := (⟨5, 0, [], 0, ⟨0, []⟩⟩ : ScaleSetState).curSize -
             (["3"] : List String).length },
       [.deleteInstances "other-group" ["3"]]) :=
  deleteInstances_targets_first_group ⟨5, 0, [], 0, ⟨0, []⟩⟩
    (fun _ => .ok "other-group") (fun _ => .ok "3")
    "azure://x/3" [] "other-group" ["3"] rfl rfl (by decide)

theorem checkNodes_ok_belongs (cfg : Config)
    (getAsgOpt : String → Except AzError (Option String)) :
    ∀ nodes refs, checkNodes cfg getAsgOpt nodes = .ok refs →
      ∀ node ∈ nodes, Belongs cfg getAsgOpt node = .ok true := by
  intro nodes
  induction nodes with
  | nil =>
    intro refs _ node hn
    cases hn
  | cons n rest ih =>
    intro refs h node hn
    simp only [checkNodes] at h
    cases hb : Belongs cfg getAsgOpt n with
    | error e =>
      simp [hb] at h
    | ok belongs =>
      cases belongs with
      | false =>
        simp [hb] at h
      | true =>
        simp only [hb] at h
        rw [if_neg (by simp)] at h
        rcases List.mem_cons.mp hn with hne | hnr
        · subst hne
          exact hb
        · cases hrest : checkNodes cfg getAsgOpt rest with
          | error e =>
            rw [hrest] at h
            simp [Except.map] at h
          | ok refs' =>
            exact ih refs' hrest node hnr

/-- C6: `DeleteNodes` errors — issuing no backend delete call — whenever
the freshly observed size satisfies `size ≤ minSize` (in particular at
`size = minSize`); otherwise every node must `Belongs` to this group by
provider id (any failure or non-membership is an error) and the call
delegates to `DeleteInstances` on the nodes' provider ids. -/
theorem deleteNodes_spec (cfg : Config) (s : ScaleSetState) (now : Int)
    (fetch : Except AzError (List VMSS))
    (getAsgOpt : String → Except AzError (Option String))
    (getAsg lastSegment : String → Except AzError String)
    (nodes : List Node) (delRes : Except AzError Unit)
    (size : Int) (s₁ : ScaleSetState) (calls : List BackendCall) :
    GetScaleSetSize cfg s now fetch = (.ok size, s₁, calls) →
    ((size ≤ cfg.minSize →
        DeleteNodes cfg s now fetch getAsgOpt getAsg lastSegment nodes delRes =
          (.error .minSizeReached, s₁, calls) ∧
        ∀ g ids, BackendCall.deleteInstances g ids ∉ calls) ∧
     (¬ size ≤ cfg.minSize →
        (∀ e, checkNodes cfg getAsgOpt nodes = .error e →
           DeleteNodes cfg s now fetch getAsgOpt getAsg lastSegment nodes delRes =
             (.error e, s₁, calls)) ∧
        (∀ refs, checkNodes cfg getAsgOpt nodes = .ok refs →
           (∀ node ∈ nodes, Belongs cfg getAsgOpt node = .ok true) ∧
           DeleteNodes cfg s now fetch getAsgOpt getAsg lastSegment nodes delRes =
             ((DeleteInstances s₁ getAsg lastSegment refs delRes).1,
              (DeleteInstances s₁ getAsg lastSegment refs delRes).2.1,
              calls ++ (DeleteInstances s₁ getAsg lastSegment refs delRes).2.2)))) := by
  intro hsize
  constructor
  · intro hmin
    constructor
    · simp only [DeleteNodes, hsize]
      rw [if_pos hmin]
    · intro g ids hmem
      rcases getCurSize_calls cfg s now fetch with hc | hc <;>
      · rw [show getCurSize cfg s now fetch = (.ok size, s₁, calls) from hsize] at hc
        simp only [Prod.snd] at hc
        subst hc
        simp at hmem
  · intro hmin
    constructor
    · intro e hchk
      simp only [DeleteNodes, hsize]
      rw [if_neg hmin]
      simp only [hchk]
    · intro refs hchk
      refine ⟨checkNodes_ok_belongs cfg getAsgOpt nodes refs hchk, ?_⟩
      simp only [DeleteNodes, hsize]
      rw [if_neg hmin]
      simp only [hchk]

/-- Witness for C6: at `minSize = 1` with a fresh cached size of `1`,
`DeleteNodes` errors with no backend call at all; at fresh size `3 > 1`
with an empty node list it delegates to `DeleteInstances`. -/
theorem deleteNodes_spec_witness :
    (DeleteNodes ⟨"a", 1, 5, 15, 300⟩ ⟨1, 0, [], 0, ⟨0, []⟩⟩ 10 (.ok [])
        (fun _ => .ok (some "a")) (fun _ => .ok "a") (fun _ => .ok "0") [] (.ok ()) =
       (.error .minSizeReached, ⟨1, 0, [], 0, ⟨0, []⟩⟩, []) ∧
     ∀ g ids, BackendCall.deleteInstances g ids ∉ ([] : List BackendCall)) ∧
    ((∀ node ∈ ([] : List Node),
        Belongs ⟨"a", 1, 5, 15, 300⟩ (fun _ => .ok (some "a")) node = .ok true) ∧
     DeleteNodes ⟨"a", 1, 5, 15, 300⟩ ⟨3, 0, [], 0, ⟨0, []⟩⟩ 10 (.ok [])
        (fun _ => .ok (some "a")) (fun _ => .ok "a") (fun _ => .ok "0") [] (.ok ()) =
       ((DeleteInstances ⟨3, 0, [], 0, ⟨0, []⟩⟩ (fun _ => .ok "a") (fun _ => .ok "0")
           [] (.ok ())).1,
        (DeleteInstances ⟨3, 0, [], 0, ⟨0, []⟩⟩ (fun _ => .ok "a") (fun _ => .ok "0")
           [] (.ok ())).2.1,
        [] ++ (DeleteInstances ⟨3, 0, [], 0, ⟨0, []⟩⟩ (fun _ => .ok "a") (fun _ => .ok "0")
           [] (.ok ())).2.2)) := by
  constructor
  · exact (deleteNodes_spec ⟨"a", 1, 5, 15, 300⟩ ⟨1, 0, [], 0, ⟨0, []⟩⟩ 10 (.ok [])
      (fun _ => .ok (some "a")) (fun _ => .ok "a") (fun _ => .ok "0") [] (.ok ())
      1 ⟨1, 0, [], 0, ⟨0, []⟩⟩ [] rfl).1 (by decide)
  · exact ((deleteNodes_spec ⟨"a", 1, 5, 15, 300⟩ ⟨3, 0, [], 0, ⟨0, []⟩⟩ 10 (.ok [])
      (fun _ => .ok (some "a")) (fun _ => .ok "a") (fun _ => .ok "0") [] (.ok ())
      3 ⟨3, 0, [], 0, ⟨0, []⟩⟩ [] rfl).2 (by decide)).2 [] rfl

theorem getCurSize_stale_calls (cfg : Config) (s : ScaleSetState) (now : Int)
    (fetch : Except AzError (List VMSS))
    (h1 : ¬ s.lastSizeRefresh + cfg.sizeRefreshPeriod > now)
    (h2 : ¬ s.statusCache.lastRefresh + cfg.sizeRefreshPeriod > now) :
    (getCurSize cfg s now fetch).2.2 = [BackendCall.listVMSS] := by
  have hv : (getVMSSInfo cfg s.statusCache now fetch).2.2 = [BackendCall.listVMSS] := by
    simp only [getVMSSInfo]
    rw [if_neg h2]
    cases fetch with
    | error e => rfl
    | ok l =>
      simp only
      split <;> rfl
  simp only [getCurSize]
  rw [if_neg h1]
  rcases hg : getVMSSInfo cfg s.statusCache now fetch with ⟨res, c', calls⟩
  rw [hg] at hv
  simp only [Prod.snd] at hv
  subst hv
  cases res with
  | error e =>
    simp only [hg]
    split <;> rfl
  | ok vmss =>
    simp only [hg]

/-- C7 (counterexample): the observer spawned by an instance deletion
does not invalidate anything on failure — it leaves the state untouched,
and the next size read still hits the fresh cache with no backend call,
contradicting the claim that *every* failed mutation observer
invalidates the size cache and forces a re-query. -/
theorem waitForDeleteInstances_no_invalidation :
    waitForDeleteInstances ⟨4, 100, [], 0, ⟨0, []⟩⟩ false = ⟨4, 100, [], 0, ⟨0, []⟩⟩ ∧
    getCurSize ⟨"a", 1, 5, 15, 300⟩ ⟨4, 100, [], 0, ⟨0, []⟩⟩ 100
        (.error (.backendErr false)) =
      (.ok 4, ⟨4, 100, [], 0, ⟨0, []⟩⟩, []) := by
  exact ⟨rfl, by decide⟩

/-- C7 (amended): only the *capacity-update* observer invalidates on
failure: `waitForUpdateVMSSCapacity` rewinds both the per-set size
timestamp and the process-wide status-cache timestamp, so every
subsequent `getCurSize` (at `now₂ ≥ now`) bypasses both caches and
issues the backend list call; the deletion observer
`waitForDeleteInstances` never touches cache state (it only logs). -/
theorem failed_mutation_observers (cfg : Config) (s : ScaleSetState) (now now₂ : Int)
    (fetch : Except AzError (List VMSS)) :
    waitForDeleteInstances s false = s ∧
    waitForDeleteInstances s true = s ∧
    (waitForUpdateVMSSCapacity cfg s now false).lastSizeRefresh =
      now - cfg.sizeRefreshPeriod ∧
    (waitForUpdateVMSSCapacity cfg s now false).statusCache.lastRefresh =
      now - cfg.sizeRefreshPeriod ∧
    (now ≤ now₂ →
       (getCurSize cfg (waitForUpdateVMSSCapacity cfg s now false) now₂ fetch).2.2 =
         [BackendCall.listVMSS]) := by
  refine ⟨rfl, rfl, rfl, rfl, ?_⟩
  intro hle
  apply getCurSize_stale_calls
  · simp only [waitForUpdateVMSSCapacity, invalidateStatusCacheWithLock]
    simp only [Bool.false_eq_true, if_false]
    omega
  · simp only [waitForUpdateVMSSCapacity, invalidateStatusCacheWithLock]
    simp only [Bool.false_eq_true, if_false]
    omega

/-- Witness for C7 (amended): a failed capacity observer at `now = 100`
forces the very next size read (`now₂ = 100`) to issue the backend list
call. -/
theorem failed_mutation_observers_witness :
    (getCurSize ⟨"a", 1, 5, 15, 300⟩
        (waitForUpdateVMSSCapacity ⟨"a", 1, 5, 15, 300⟩ ⟨4, 100, [], 0, ⟨100, []⟩⟩
          100 false)
        100 (.error (.backendErr false))).2.2 = [BackendCall.listVMSS] :=
  (failed_mutation_observers ⟨"a", 1, 5, 15, 300⟩ ⟨4, 100, [], 0, ⟨100, []⟩⟩
      100 100 (.error (.backendErr false))).2.2.2.2 (by decide)

/-- C8 (counterexample): a VM entry with a non-empty id but an *absent*
provisioning state survives the rebuild with *no* status (`none`), not
with state Running, contradicting the claim that an absent provisioning
state maps to Running. -/
theorem buildInstanceCache_nil_state :
    buildInstanceCache [⟨"X", none⟩] = [⟨"azure://x", none⟩] ∧
    ({ id := "azure://x", status := none } : Instance).status ≠
      some InstanceState.running := by
  exact ⟨by decide, by decide⟩

/-- C8 (amended): the rebuild drops every entry with an empty
identifier, normalizes each surviving identifier to the lowercased form
prefixed with `azure://`, and derives the status from the provisioning
state: `Deleting → Deleting`, `Creating → Creating`, any other *present*
state → `Running`; an entry with an absent provisioning state yields an
instance with no status at all. -/
theorem buildInstanceCache_spec (vms : List VMSSVM) :
    buildInstanceCache vms =
      vms.filterMap (fun vm =>
        if vm.id.length = 0 then none
        else some { id := "azure://" ++ toLowerStr vm.id,
                    status := instanceStatusFromVM vm }) ∧
    ∀ vm : VMSSVM,
      (vm.provisioningState = none → instanceStatusFromVM vm = none) ∧
      (vm.provisioningState = some "Deleting" →
         instanceStatusFromVM vm = some .deleting) ∧
      (vm.provisioningState = some "Creating" →
         instanceStatusFromVM vm = some .creating) ∧
      (∀ ps, vm.provisioningState = some ps → ps ≠ "Deleting" → ps ≠ "Creating" →
         instanceStatusFromVM vm = some .running) := by
  constructor
  · induction vms with
    | nil => rfl
    | cons vm rest ih =>
      by_cases hid : vm.id.length = 0
      · simp [buildInstanceCache, hid, List.filterMap_cons, ih]
      · simp [buildInstanceCache, hid, List.filterMap_cons, ih,
          convertResourceGroupNameToLower]
  · intro vm
    refine ⟨?_, ?_, ?_, ?_⟩
    · intro h
      simp [instanceStatusFromVM, h]
    · intro h
      simp [instanceStatusFromVM, h]
    · intro h
      simp [instanceStatusFromVM, h]
    · intro ps h hnd hnc
      simp [instanceStatusFromVM, h, hnd, hnc]

/-- Witness for C8 (amended): concrete rebuild of a mixed list — an
empty-id entry is dropped, a `Deleting` VM keeps state deleting, an
unknown state maps to running — and the state-mapping conjuncts applied
to a `Deleting` VM. -/
theorem buildInstanceCache_spec_witness :
    buildInstanceCache [⟨"", some "Running"⟩, ⟨"A/B", some "Deleting"⟩, ⟨"C", some "Succeeded"⟩] =
      List.filterMap (fun vm =>
        if vm.id.length = 0 then none
        else some { id := "azure://" ++ toLowerStr vm.id,
                    status := instanceStatusFromVM vm })
        [⟨"", some "Running"⟩, ⟨"A/B", some "Deleting"⟩, ⟨"C", some "Succeeded"⟩] ∧
    instanceStatusFromVM ⟨"A/B", some "Deleting"⟩ = some .deleting ∧
    instanceStatusFromVM ⟨"C", some "Succeeded"⟩ = some .running :=
  ⟨(buildInstanceCache_spec
      [⟨"", some "Running"⟩, ⟨"A/B", some "Deleting"⟩, ⟨"C", some "Succeeded"⟩]).1,
   ((buildInstanceCache_spec []).2 ⟨"A/B", some "Deleting"⟩).2.1 rfl,
   ((buildInstanceCache_spec []).2 ⟨"C", some "Succeeded"⟩).2.2.2 "Succeeded" rfl
     (by decide) (by decide)⟩

/-- C9 (counterexample): on the stale-cache refresh path, the
process-wide group-cache lock *is* held while the backend list call is
in flight, and at that moment the per-set size lock is held as well —
two of the three locks at once — contradicting both parts of the
claim. -/
theorem lock_discipline_counterexample :
    heldAtBackendCalls [] (getVMSSInfoEvents false) = [[Lock.groupCacheLock]] ∧
    heldAtBackendCalls [] (getCurSizeEvents false false false false) =
      [[Lock.groupCacheLock, Lock.sizeLock]] := by
  decide

/-- C9 (amended): the lock discipline the code actually implements —
`getVMSSInfo` holds the group-cache lock across its backend list call;
on `getCurSize`'s refresh path the size lock is additionally held at
that moment (two of the three locks simultaneously), and when the
refreshed capacity differs the size and instance locks are also held
together; only the fresh path and the cache-hit path issue no backend
call under a lock. -/
theorem lock_discipline_actual :
    ∀ cacheHit errorPath sizeChanged : Bool,
      heldAtBackendCalls [] (getVMSSInfoEvents false) = [[Lock.groupCacheLock]] ∧
      heldAtBackendCalls [] (getVMSSInfoEvents true) = [] ∧
      heldAtBackendCalls [] (getCurSizeEvents true cacheHit errorPath sizeChanged) = [] ∧
      heldAtBackendCalls [] (getCurSizeEvents false true errorPath sizeChanged) = [] ∧
      heldAtBackendCalls [] (getCurSizeEvents false false errorPath sizeChanged) =
        [[Lock.groupCacheLock, Lock.sizeLock]] ∧
      [Lock.instanceLock, Lock.sizeLock] ∈
        heldSets [] (getCurSizeEvents false false false true) := by
  decide

end AutoScaler

